import Mathlib

/-!
# cc-server-go: the request dispatcher and its handlers

A shallow embedding of `app/server.go`.

Modelling conventions.
* A Go `string` (and a `[]byte`) is a `List Char`, one `Char` per byte; `len`
  is `List.length`.  Every literal of the program is ASCII.
* A connection records the byte strings passed to `c.Write`, in order, and
  whether `c.Close` has run.
* A panic is an `Except.error`.
* The file system is a map from resolved path to contents, together with the
  set of paths on which `os.WriteFile` succeeds.
* `compress/gzip` is a library: the compressor is a parameter `gz`.
* Output to standard output (`fmt.Printf`) is not modelled.
-/

set_option maxRecDepth 8000

namespace Server

/-! ## Library functions used by the program -/

/-- Go `strings.HasPrefix`. -/
def HasPrefix : List Char → List Char → Bool
  | _, [] => true
  | [], _ :: _ => false
  | c :: s, d :: p => c == d && HasPrefix s p

/-- Go `strings.Contains`: some suffix of `s` starts with `substr`. -/
def Contains : List Char → List Char → Bool
  | [], substr => HasPrefix [] substr
  | c :: s, substr => HasPrefix (c :: s) substr || Contains s substr

/-- Prepend a byte to the first piece of a split. -/
def consHead (c : Char) : List (List Char) → List (List Char)
  | [] => [[c]]
  | h :: t => (c :: h) :: t

/-- The scan of `strings.Split` for a non-empty separator: `skip` counts the
bytes of a separator occurrence that are still to be passed over. -/
def splitScan (sep : List Char) : Nat → List Char → List (List Char)
  | _, [] => [[]]
  | skip + 1, _ :: rest => splitScan sep skip rest
  | 0, c :: rest =>
    if HasPrefix (c :: rest) sep then [] :: splitScan sep (sep.length - 1) rest
    else consHead c (splitScan sep 0 rest)

/-- Go `strings.Split`: the pieces of `s` between the non-overlapping
occurrences of `sep`, left to right; an empty `sep` splits after every byte. -/
def Split (s sep : List Char) : List (List Char) :=
  if sep = [] then s.map (fun c => [c]) else splitScan sep 0 s

/-- Decimal rendering of an integer, the `%d` verb. -/
def itoa : Int → List Char
  | Int.ofNat n => Nat.toDigits 10 n
  | Int.negSucc n => '-' :: Nat.toDigits 10 (n + 1)

/-- An operand of `fmt.Sprintf`. -/
inductive Arg where
  | int (n : Int)
  | str (s : List Char)

/-- Go `fmt.Sprintf` for the verbs this program uses: `%d` with an integer
operand and `%s` with a string or byte-slice operand; every other byte of the
format is copied. -/
def Sprintf : List Char → List Arg → List Char
  | [], _ => []
  | [c], _ => [c]
  | c :: d :: rest, args =>
    if c = '%' ∧ d = 'd' then
      match args with
      | Arg.int n :: more => itoa n ++ Sprintf rest more
      | _ => c :: Sprintf (d :: rest) args
    else if c = '%' ∧ d = 's' then
      match args with
      | Arg.str s :: more => s ++ Sprintf rest more
      | _ => c :: Sprintf (d :: rest) args
    else c :: Sprintf (d :: rest) args

/-- Go `strings.Join`. -/
def stringsJoin (elems : List (List Char)) (sep : List Char) : List Char :=
  sep.intercalate elems

/-- One path element of `filepath.Clean`; `out` holds the elements kept so far,
the last one first. -/
def cleanElem (rooted : Bool) (out : List (List Char)) (elem : List Char) :
    List (List Char) :=
  if elem = [] then out
  else if elem = ".".toList then out
  else if elem = "..".toList then
    match out with
    | top :: below => if top = "..".toList then elem :: out else below
    | [] => if rooted then [] else [elem]
  else elem :: out

/-- Go `filepath.Clean` on a Unix path: empty and `.` elements are dropped, a
`..` element removes the element before it, a `..` at the root is dropped, and
the empty result is `.`. -/
def Clean (path : List Char) : List Char :=
  if path = [] then ".".toList
  else
    let rooted := HasPrefix path "/".toList
    let out := (Split path "/".toList).foldl (cleanElem rooted) []
    if rooted then '/' :: stringsJoin out.reverse "/".toList
    else if out = [] then ".".toList
    else stringsJoin out.reverse "/".toList

/-- Go `filepath.Join`: the elements from the first non-empty one on, joined
with the separator and cleaned. -/
def filepathJoin : List (List Char) → List Char
  | [] => []
  | e :: rest =>
    if e = [] then filepathJoin rest else Clean (stringsJoin (e :: rest) "/".toList)

/-- Go `http.Header`: canonical header name to the values received for it. -/
abbrev Header := List (List Char × List (List Char))

/-- Go `Header.Get`: the first value of the header, the empty string when
there is none. -/
def Header.Get (h : Header) (key : List Char) : List Char :=
  match h.lookup key with
  | some (v :: _) => v
  | _ => []

/-- The fields of a parsed `http.Request` that the program reads.  `Path` is
`req.URL.Path`; `Body` is the result of `io.ReadAll(req.Body)`, `none` when the
read fails. -/
structure Request where
  Method : List Char
  Path : List Char
  Header : Header
  Body : Option (List Char)

/-- What happens on a connection. -/
inductive Event where
  | write (data : List Char)
  | close
  deriving DecidableEq, Repr

/-- A `net.Conn`, as the operations performed on it so far, oldest first. -/
abbrev Conn := List Event

def Conn.Write (c : Conn) (data : List Char) : Conn := c ++ [Event.write data]

def Conn.Close (c : Conn) : Conn := c ++ [Event.close]

/-- The stored files: the contents readable at each resolved path, and the
paths on which `os.WriteFile` succeeds. -/
structure FS where
  files : List Char → Option (List Char)
  writable : List Char → Bool

/-- Go `os.ReadFile`; `none` is a read error. -/
def ReadFile (fs : FS) (name : List Char) : Option (List Char) := fs.files name

/-- Go `os.WriteFile`; `none` is a write error, and the model keeps the files
as they were in that case. -/
def WriteFile (fs : FS) (name : List Char) (data : List Char) : Option FS :=
  if fs.writable name then
    some { fs with files := fun q => if q = name then some data else fs.files q }
  else none

/-- The run-time panics of the program. -/
inductive Panic where
  | indexOutOfRange
  | failedToReadBody
  deriving DecidableEq, Repr

/-- Indexing a slice, `xs[i]`. -/
def index (xs : List (List Char)) (i : Nat) : Except Panic (List Char) :=
  match xs[i]? with
  | some x => Except.ok x
  | none => Except.error Panic.indexOutOfRange

/-! ## The program -/

def StatusOk : Int := 200
def StatusCreated : Int := 201
def NotFound : Int := 404

/-- The fixed base directory of the stored files. -/
def baseDir : List Char := "/tmp/data/codecrafters.io/http-server-tester".toList

/-- Source `statusText`: the text explanation of the status code. -/
def statusText (code : Int) : List Char :=
  if code = StatusOk then "OK".toList
  else if code = StatusCreated then "Created".toList
  else if code = NotFound then "Not Found".toList
  else []

/-- Source `supportedEncoding`. -/
def supportedEncoding (encodings : List Char) : List Char :=
  if Contains encodings "gzip".toList then "gzip".toList else []

/-- Source `handleRoot`. -/
def handleRoot (c : Conn) : Conn :=
  c.Write (Sprintf "HTTP/1.1 %d %s\r\n\r\n".toList [Arg.int StatusOk, Arg.str (statusText StatusOk)])

/-- Source `handleNotFound`. -/
def handleNotFound (c : Conn) : Conn :=
  c.Write (Sprintf "HTTP/1.1 %d %s\r\n\r\n".toList [Arg.int NotFound, Arg.str (statusText NotFound)])

/-- Source `postFiles`. -/
def postFiles (c : Conn) (req : Request) (fs : FS) : Except Panic (Conn × FS) := do
  let pathChunks := Split req.Path "/".toList
  let filename ← index pathChunks 2
  let fpath := filepathJoin [baseDir, filename]
  match req.Body with
  | none => Except.error Panic.failedToReadBody
  | some content =>
    match WriteFile fs fpath content with
    | none => pure (handleNotFound c, fs)
    | some fs1 =>
      let res := Sprintf
        "HTTP/1.1 %d %s\r\nContent-Type: application/octet-stream\r\nContent-Length: %d\r\n\r\n%s".toList
        [Arg.int StatusCreated, Arg.str (statusText StatusCreated),
         Arg.int content.length, Arg.str content]
      pure (c.Write res, fs1)

/-- Source `getFiles`. -/
def getFiles (c : Conn) (req : Request) (fs : FS) : Except Panic Conn := do
  let path := req.Path
  let pathChunks := Split path "/".toList
  let filename ← index pathChunks 2
  let fpath := filepathJoin [baseDir, filename]
  match ReadFile fs fpath with
  | none => pure (handleNotFound c)
  | some fileContents =>
    let res := Sprintf
      "HTTP/1.1 %d %s\r\nContent-Type: application/octet-stream\r\nContent-Length: %d\r\n\r\n%s".toList
      [Arg.int StatusOk, Arg.str (statusText StatusOk),
       Arg.int fileContents.length, Arg.str fileContents]
    pure (c.Write res)

/-- Source `handleFiles`. -/
def handleFiles (c : Conn) (req : Request) (fs : FS) : Except Panic (Conn × FS) :=
  if req.Method = "GET".toList then (getFiles c req fs).map (fun c1 => (c1, fs))
  else if req.Method = "POST".toList then postFiles c req fs
  else pure (c, fs)

/-- Source `handleUserAgent`. -/
def handleUserAgent (c : Conn) (req : Request) : Conn :=
  let body := req.Header.Get "User-Agent".toList
  let res := Sprintf "HTTP/1.1 %d %s\r\nContent-Type: text/plain\r\nContent-Length: %d\r\n\r\n%s".toList
    [Arg.int StatusOk, Arg.str (statusText StatusOk), Arg.int body.length, Arg.str body]
  c.Write res

/-- Source `compress`: everything written to a gzip writer `gz` over a fresh
buffer, closed. -/
def compress (gz : List Char → List Char) (body : List Char) : List Char := gz body

/-- Source `handleEcho`. -/
def handleEcho (gz : List Char → List Char) (c : Conn) (req : Request) :
    Except Panic Conn := do
  let path := req.Path
  let pathChunks := Split path "/".toList
  let body ← index pathChunks 2
  let encoding := supportedEncoding (req.Header.Get "Accept-Encoding".toList)
  let res :=
    if encoding.length > 0 then
      let gzip := compress gz body
      Sprintf
        "HTTP/1.1 %d %s\r\nContent-Type: text/plain\r\nContent-Encoding: %s\r\nContent-Length: %d\r\n\r\n%s".toList
        [Arg.int StatusOk, Arg.str (statusText StatusOk), Arg.str encoding,
         Arg.int gzip.length, Arg.str gzip]
    else
      Sprintf "HTTP/1.1 %d %s\r\nContent-Type: text/plain\r\nContent-Length: %d\r\n\r\n%s".toList
        [Arg.int StatusOk, Arg.str (statusText StatusOk), Arg.int body.length, Arg.str body]
  pure (c.Write res)

/-- Source `handler`, from the parsed request on: the handler chosen by the
path runs, then the deferred `c.Close()`. -/
def handler (gz : List Char → List Char) (c : Conn) (req : Request) (fs : FS) :
    Except Panic (Conn × FS) := do
  let path := req.Path
  let (c1, fs1) ←
    if path = "/".toList then pure (handleRoot c, fs)
    else if Contains path "/files/".toList then handleFiles c req fs
    else if Contains path "/echo/".toList then (handleEcho gz c req).map (fun c1 => (c1, fs))
    else if Contains path "/user-agent".toList then pure (handleUserAgent c req, fs)
    else (pure (handleNotFound c, fs) : Except Panic (Conn × FS))
  pure (c1.Close, fs1)

/-! ## Sample data -/

/-- A file system with no readable file, where every write succeeds. -/
def emptyFS : FS := { files := fun _ => none, writable := fun _ => true }

/-- The file system `emptyFS` after "hello" has been written to the file "abc"
of the base directory. -/
def helloFS : FS :=
  { files := fun q =>
      if q = filepathJoin [baseDir, "abc".toList] then some "hello".toList else emptyFS.files q,
    writable := emptyFS.writable }

/-- A stand-in compressor: a two-byte magic number, then the input stored. -/
def toyGzip (x : List Char) : List Char := '\x1f' :: '\x8b' :: x

/-- The decompressor of `toyGzip`. -/
def toyGunzip : List Char → Option (List Char)
  | a :: b :: x => if a = '\x1f' ∧ b = '\x8b' then some x else none
  | _ => none

/-! ## The dispatch as the specification words it -/

/-- The five handlers. -/
inductive Route where
  | root
  | files
  | echo
  | userAgent
  | notFound
  deriving DecidableEq, Repr

/-- Handler selection in the words of the specification: the first match, in
order, of "path equals /", "path contains /files/", "path contains /echo/",
"path contains /user-agent", otherwise not found.  Containment is the
contiguous-sublist relation of the library. -/
def selectRoute (p : List Char) : Route :=
  if p = ['/'] then Route.root
  else if "/files/".toList <:+: p then Route.files
  else if "/echo/".toList <:+: p then Route.echo
  else if "/user-agent".toList <:+: p then Route.userAgent
  else Route.notFound

/-- The source handler that a route names, run on a connection. -/
def runRoute (gz : List Char → List Char) (r : Route) (c : Conn) (req : Request) (fs : FS) :
    Except Panic (Conn × FS) :=
  match r with
  | Route.root => Except.ok (handleRoot c, fs)
  | Route.files => handleFiles c req fs
  | Route.echo => (handleEcho gz c req).map (fun c1 => (c1, fs))
  | Route.userAgent => Except.ok (handleUserAgent c req, fs)
  | Route.notFound => Except.ok (handleNotFound c, fs)

/-- The deferred `c.Close()` after a handler has returned. -/
def closeAfter (r : Except Panic (Conn × FS)) : Except Panic (Conn × FS) :=
  r.map (fun x => (x.1.Close, x.2))

/-! ## Facts about the library functions -/

theorem HasPrefix_iff (s p : List Char) : HasPrefix s p = true ↔ p <+: s := by
  induction p generalizing s with
  | nil => simp [HasPrefix]
  | cons d p ih =>
    cases s with
    | nil => simp [HasPrefix]
    | cons c s =>
      simp only [HasPrefix, Bool.and_eq_true, beq_iff_eq, ih, List.cons_prefix_cons]
      constructor
      · rintro ⟨h, h2⟩; exact ⟨h.symm, h2⟩
      · rintro ⟨h, h2⟩; exact ⟨h.symm, h2⟩

theorem Contains_iff (s sub : List Char) : Contains s sub = true ↔ sub <:+: s := by
  induction s with
  | nil => simp [Contains, HasPrefix_iff]
  | cons c s ih =>
    simp only [Contains, Bool.or_eq_true, HasPrefix_iff, ih, List.infix_cons_iff]

theorem splitScan_ne_nil (sep : List Char) (k : Nat) (s : List Char) :
    splitScan sep k s ≠ [] := by
  induction s generalizing k with
  | nil => cases k <;> simp [splitScan]
  | cons c s ih =>
    cases k with
    | succ k => simpa [splitScan] using ih k
    | zero =>
      simp only [splitScan]
      split
      · simp
      · cases h : splitScan sep 0 s <;> simp [consHead]

theorem Split_slash_nil : Split [] ['/'] = [[]] := by
  simp [Split, splitScan]

theorem Split_slash_cons (c : Char) (s : List Char) :
    Split (c :: s) ['/'] = if c = '/' then [] :: Split s ['/'] else consHead c (Split s ['/']) := by
  simp only [Split, splitScan, HasPrefix, List.length_singleton]
  simp

theorem Split_slash_ne_nil (s : List Char) : Split s ['/'] ≠ [] := by
  simp only [Split]
  simpa using splitScan_ne_nil ['/'] 0 s

theorem consHead_append (c : Char) (xs ys : List (List Char)) (h : xs ≠ []) :
    consHead c (xs ++ ys) = consHead c xs ++ ys := by
  cases xs with
  | nil => exact absurd rfl h
  | cons x xs => rfl

/-- Splitting at a separator byte splits the list of pieces. -/
theorem Split_slash_append (a b : List Char) :
    Split (a ++ '/' :: b) ['/'] = Split a ['/'] ++ Split b ['/'] := by
  induction a with
  | nil => simp [Split_slash_cons, Split_slash_nil]
  | cons c a ih =>
    simp only [List.cons_append, Split_slash_cons, ih]
    split
    · rfl
    · exact consHead_append c _ _ (Split_slash_ne_nil a)

theorem Split_slash_of_not_mem (f : List Char) (h : '/' ∉ f) : Split f ['/'] = [f] := by
  induction f with
  | nil => exact Split_slash_nil
  | cons c f ih =>
    simp only [List.mem_cons, not_or] at h
    rw [Split_slash_cons, if_neg (fun e => h.1 e.symm), ih h.2]
    rfl

theorem Split_slash_not_mem (s : List Char) : ∀ x ∈ Split s ['/'], '/' ∉ x := by
  induction s with
  | nil => simp [Split_slash_nil]
  | cons c s ih =>
    rw [Split_slash_cons]
    split
    · intro x hx
      simp only [List.mem_cons] at hx
      rcases hx with rfl | hx
      · simp
      · exact ih x hx
    · rename_i hc
      intro x hx
      cases hs : Split s ['/'] with
      | nil => exact absurd hs (Split_slash_ne_nil s)
      | cons y ys =>
        rw [hs] at hx ih
        simp only [consHead, List.mem_cons] at hx
        rcases hx with rfl | hx
        · simp only [List.mem_cons, not_or]
          exact ⟨fun e => hc e.symm, ih y (by simp)⟩
        · exact ih x (by simp [hx])

/-! ## The responses, as byte strings -/

theorem itoa_StatusOk : itoa StatusOk = ['2', '0', '0'] := by decide

theorem itoa_StatusCreated : itoa StatusCreated = ['2', '0', '1'] := by decide

theorem itoa_NotFound : itoa NotFound = ['4', '0', '4'] := by decide

theorem statusText_StatusOk : statusText StatusOk = ['O', 'K'] := by decide

theorem statusText_StatusCreated :
    statusText StatusCreated = ['C', 'r', 'e', 'a', 't', 'e', 'd'] := by decide

theorem statusText_NotFound :
    statusText NotFound = ['N', 'o', 't', ' ', 'F', 'o', 'u', 'n', 'd'] := by decide

theorem handleRoot_eq (c : Conn) :
    handleRoot c = c ++ [Event.write "HTTP/1.1 200 OK\r\n\r\n".toList] := by
  simp [handleRoot, Conn.Write, Sprintf, itoa_StatusOk, statusText_StatusOk, String.toList]

theorem handleNotFound_eq (c : Conn) :
    handleNotFound c = c ++ [Event.write "HTTP/1.1 404 Not Found\r\n\r\n".toList] := by
  simp [handleNotFound, Conn.Write, Sprintf, itoa_NotFound, statusText_NotFound, String.toList]

theorem sprintf_plain (n : Int) (body : List Char) :
    Sprintf "HTTP/1.1 %d %s\r\nContent-Type: text/plain\r\nContent-Length: %d\r\n\r\n%s".toList
      [Arg.int StatusOk, Arg.str (statusText StatusOk), Arg.int n, Arg.str body]
    = "HTTP/1.1 200 OK\r\nContent-Type: text/plain\r\nContent-Length: ".toList ++ itoa n
        ++ "\r\n\r\n".toList ++ body := by
  simp [Sprintf, itoa_StatusOk, statusText_StatusOk, String.toList]

theorem sprintf_gzip (n : Int) (body : List Char) :
    Sprintf
      "HTTP/1.1 %d %s\r\nContent-Type: text/plain\r\nContent-Encoding: %s\r\nContent-Length: %d\r\n\r\n%s".toList
      [Arg.int StatusOk, Arg.str (statusText StatusOk), Arg.str "gzip".toList, Arg.int n,
        Arg.str body]
    = "HTTP/1.1 200 OK\r\nContent-Type: text/plain\r\nContent-Encoding: gzip\r\nContent-Length: ".toList
        ++ itoa n ++ "\r\n\r\n".toList ++ body := by
  simp [Sprintf, itoa_StatusOk, statusText_StatusOk, String.toList]

theorem sprintf_octet_ok (n : Int) (body : List Char) :
    Sprintf
      "HTTP/1.1 %d %s\r\nContent-Type: application/octet-stream\r\nContent-Length: %d\r\n\r\n%s".toList
      [Arg.int StatusOk, Arg.str (statusText StatusOk), Arg.int n, Arg.str body]
    = "HTTP/1.1 200 OK\r\nContent-Type: application/octet-stream\r\nContent-Length: ".toList
        ++ itoa n ++ "\r\n\r\n".toList ++ body := by
  simp [Sprintf, itoa_StatusOk, statusText_StatusOk, String.toList]

theorem sprintf_octet_created (n : Int) (body : List Char) :
    Sprintf
      "HTTP/1.1 %d %s\r\nContent-Type: application/octet-stream\r\nContent-Length: %d\r\n\r\n%s".toList
      [Arg.int StatusCreated, Arg.str (statusText StatusCreated), Arg.int n, Arg.str body]
    = "HTTP/1.1 201 Created\r\nContent-Type: application/octet-stream\r\nContent-Length: ".toList
        ++ itoa n ++ "\r\n\r\n".toList ++ body := by
  simp [Sprintf, itoa_StatusCreated, statusText_StatusCreated, String.toList]

/-! ## Dispatch -/

theorem handler_eq_runRoute (gz : List Char → List Char) (c : Conn) (req : Request) (fs : FS) :
    handler gz c req fs = closeAfter (runRoute gz (selectRoute req.Path) c req fs) := by
  unfold handler selectRoute
  have e1 : "/".toList = ['/'] := rfl
  simp only [e1]
  by_cases h1 : req.Path = ['/']
  · simp [h1, runRoute, closeAfter, Except.map, bind, Except.bind, pure, Except.pure]
  · by_cases h2 : "/files/".toList <:+: req.Path
    · have h2c := (Contains_iff _ _).2 h2
      simp only [if_neg h1, if_pos h2, h2c, if_true, runRoute, closeAfter]
      cases handleFiles c req fs <;> rfl
    · have h2c : ¬ Contains req.Path "/files/".toList = true := fun h => h2 ((Contains_iff _ _).1 h)
      by_cases h3 : "/echo/".toList <:+: req.Path
      · have h3c := (Contains_iff _ _).2 h3
        simp only [if_neg h1, if_neg h2, if_pos h3, if_neg h2c, h3c, if_true, runRoute, closeAfter]
        cases handleEcho gz c req <;> rfl
      · have h3c : ¬ Contains req.Path "/echo/".toList = true :=
          fun h => h3 ((Contains_iff _ _).1 h)
        by_cases h4 : "/user-agent".toList <:+: req.Path
        · have h4c := (Contains_iff _ _).2 h4
          simp only [if_neg h1, if_neg h2, if_neg h3, if_pos h4, if_neg h2c, if_neg h3c, h4c,
            if_true, runRoute, closeAfter]
          rfl
        · have h4c : ¬ Contains req.Path "/user-agent".toList = true :=
            fun h => h4 ((Contains_iff _ _).1 h)
          simp only [if_neg h1, if_neg h2, if_neg h3, if_neg h4, if_neg h2c, if_neg h3c,
            if_neg h4c, runRoute, closeAfter]
          rfl

/-- C1: the dispatcher runs exactly the one handler that the first-match order
on the path selects (root, then files, then echo, then user-agent, then not
found); the selection is a function of the path alone, and a path containing
both "/files/" and "/echo/", such as "/echo/files/x", goes to the files
handler. -/
theorem handler_first_match (gz : List Char → List Char) (c : Conn) (req : Request) (fs : FS) :
    handler gz c req fs = closeAfter (runRoute gz (selectRoute req.Path) c req fs)
    ∧ (req.Path = "/".toList → selectRoute req.Path = Route.root)
    ∧ ("/files/".toList <:+: req.Path → "/echo/".toList <:+: req.Path →
        selectRoute req.Path = Route.files)
    ∧ selectRoute "/echo/files/x".toList = Route.files := by
  refine ⟨handler_eq_runRoute gz c req fs, ?_, ?_, by decide⟩
  · intro h
    have e1 : "/".toList = ['/'] := rfl
    rw [e1] at h
    simp [selectRoute, h]
  · intro hf _
    have hne : req.Path ≠ ['/'] := by
      intro h
      rw [h] at hf
      revert hf
      decide
    unfold selectRoute
    rw [if_neg hne, if_pos hf]

/-- C2, at a request the program can receive: a PUT to "/files/x" leaves the
connection closed with no response written on it. -/
theorem handler_put_files_writes_nothing (gz : List Char → List Char) (fs : FS) :
    handler gz []
      { Method := "PUT".toList, Path := "/files/x".toList, Header := [], Body := some [] } fs
      = Except.ok ([Event.close], fs) := by
  rfl

/-! ## Echo -/

theorem Header.Get_of_lookup_none (h : Header) (key : List Char) (hk : h.lookup key = none) :
    h.Get key = [] := by
  simp [Header.Get, hk]

theorem Split_echo (msg : List Char) (hmsg : '/' ∉ msg) :
    Split ("/echo/".toList ++ msg) "/".toList = [[], "echo".toList, msg] := by
  have e : "/echo/".toList ++ msg = [] ++ '/' :: ("echo".toList ++ '/' :: msg) := rfl
  have e1 : "/".toList = ['/'] := rfl
  rw [e, e1, Split_slash_append, Split_slash_append, Split_slash_nil,
    Split_slash_of_not_mem "echo".toList (by decide), Split_slash_of_not_mem msg hmsg]
  rfl

theorem supportedEncoding_without_gzip (enc : List Char) (h : ¬ "gzip".toList <:+: enc) :
    supportedEncoding enc = [] := by
  have hc : ¬ Contains enc "gzip".toList = true := fun hc => h ((Contains_iff _ _).1 hc)
  simp only [supportedEncoding, if_neg hc]

theorem supportedEncoding_with_gzip (enc : List Char) (h : "gzip".toList <:+: enc) :
    supportedEncoding enc = "gzip".toList := by
  have hc := (Contains_iff _ _).2 h
  simp only [supportedEncoding, hc, if_true]

/-- C3: for a message `msg` without '/', and an Accept-Encoding header that is
absent or does not contain "gzip", `handleEcho` on the path "/echo/" ++ msg
writes exactly the 200 response with Content-Type text/plain, Content-Length
the decimal length of `msg`, and body `msg`. -/
theorem handleEcho_plain (gz : List Char → List Char) (c : Conn) (req : Request)
    (msg : List Char) (hmsg : '/' ∉ msg) (hpath : req.Path = "/echo/".toList ++ msg)
    (henc : req.Header.lookup "Accept-Encoding".toList = none
      ∨ ¬ "gzip".toList <:+: req.Header.Get "Accept-Encoding".toList) :
    handleEcho gz c req = Except.ok (c ++ [Event.write
      ("HTTP/1.1 200 OK\r\nContent-Type: text/plain\r\nContent-Length: ".toList
        ++ itoa msg.length ++ "\r\n\r\n".toList ++ msg)]) := by
  have hno : ¬ "gzip".toList <:+: req.Header.Get "Accept-Encoding".toList := by
    rcases henc with h | h
    · rw [Header.Get_of_lookup_none _ _ h]
      decide
    · exact h
  unfold handleEcho
  simp only [hpath, Split_echo msg hmsg, supportedEncoding_without_gzip _ hno]
  simp only [index, List.getElem?_cons_succ, List.getElem?_cons_zero, bind, Except.bind,
    List.length_nil, gt_iff_lt, lt_self_iff_false, if_false, pure, Except.pure, Conn.Write,
    sprintf_plain]

/-- C4: for a message `msg` without '/', and an Accept-Encoding header that
contains "gzip", `handleEcho` on the path "/echo/" ++ msg writes exactly the 200
response with Content-Type text/plain and Content-Encoding gzip whose body is
the compression of `msg` and whose Content-Length is the decimal length of
that compressed body; any decompressor that inverts the compressor recovers
`msg` from the body. -/
theorem handleEcho_gzip (gz : List Char → List Char) (gunzip : List Char → Option (List Char))
    (c : Conn) (req : Request) (msg : List Char) (hmsg : '/' ∉ msg)
    (hpath : req.Path = "/echo/".toList ++ msg)
    (henc : "gzip".toList <:+: req.Header.Get "Accept-Encoding".toList)
    (hinv : ∀ x, gunzip (gz x) = some x) :
    ∃ body : List Char,
      handleEcho gz c req = Except.ok (c ++ [Event.write
        ("HTTP/1.1 200 OK\r\nContent-Type: text/plain\r\nContent-Encoding: gzip\r\nContent-Length: ".toList
          ++ itoa body.length ++ "\r\n\r\n".toList ++ body)])
      ∧ body = compress gz msg ∧ gunzip body = some msg := by
  refine ⟨compress gz msg, ?_, rfl, hinv msg⟩
  unfold handleEcho
  simp only [hpath, Split_echo msg hmsg, supportedEncoding_with_gzip _ henc]
  simp only [index, List.getElem?_cons_succ, List.getElem?_cons_zero, bind, Except.bind,
    pure, Except.pure, Conn.Write]
  rw [if_pos (by decide), sprintf_gzip]

/-! ## User agent and status text -/

theorem selectRoute_userAgent_handler (gz : List Char → List Char) (c : Conn) (req : Request)
    (fs : FS) (h : selectRoute req.Path = Route.userAgent) :
    handler gz c req fs = Except.ok ((handleUserAgent c req).Close, fs) := by
  rw [handler_eq_runRoute, h]
  rfl

/-- C7: `handleUserAgent` writes exactly the 200 response with Content-Type
text/plain whose body is the User-Agent header value verbatim and whose
Content-Length is the decimal length of that value; the value is empty when the
header is absent; a request that the dispatcher routes to this handler gets
that response and then the close; and the value "foo/1.0" gives length 7. -/
theorem handleUserAgent_verbatim (gz : List Char → List Char) (c : Conn) (req : Request)
    (fs : FS) :
    handleUserAgent c req = c ++ [Event.write
      ("HTTP/1.1 200 OK\r\nContent-Type: text/plain\r\nContent-Length: ".toList
        ++ itoa (req.Header.Get "User-Agent".toList).length ++ "\r\n\r\n".toList
        ++ req.Header.Get "User-Agent".toList)]
    ∧ (req.Header.lookup "User-Agent".toList = none → req.Header.Get "User-Agent".toList = [])
    ∧ (selectRoute req.Path = Route.userAgent →
        handler gz c req fs = Except.ok (c ++ [Event.write
          ("HTTP/1.1 200 OK\r\nContent-Type: text/plain\r\nContent-Length: ".toList
            ++ itoa (req.Header.Get "User-Agent".toList).length ++ "\r\n\r\n".toList
            ++ req.Header.Get "User-Agent".toList), Event.close], fs))
    ∧ handleUserAgent []
        { Method := "GET".toList, Path := "/user-agent".toList,
          Header := [("User-Agent".toList, ["foo/1.0".toList])], Body := some [] }
      = [Event.write
          "HTTP/1.1 200 OK\r\nContent-Type: text/plain\r\nContent-Length: 7\r\n\r\nfoo/1.0".toList] := by
  have main : handleUserAgent c req = c ++ [Event.write
      ("HTTP/1.1 200 OK\r\nContent-Type: text/plain\r\nContent-Length: ".toList
        ++ itoa (req.Header.Get "User-Agent".toList).length ++ "\r\n\r\n".toList
        ++ req.Header.Get "User-Agent".toList)] := by
    simp only [handleUserAgent, Conn.Write, sprintf_plain]
  refine ⟨main, Header.Get_of_lookup_none _ _, ?_, by decide⟩
  intro h
  rw [selectRoute_userAgent_handler gz c req fs h, main]
  simp [Conn.Close]

/-- C8: `statusText` is defined on every integer: 200, 201 and 404 give "OK",
"Created" and "Not Found", and every other integer, negative ones included,
gives the empty string. -/
theorem statusText_total (code : Int) :
    statusText 200 = "OK".toList ∧ statusText 201 = "Created".toList
    ∧ statusText 404 = "Not Found".toList
    ∧ (code ≠ 200 → code ≠ 201 → code ≠ 404 → statusText code = []) := by
  refine ⟨by decide, by decide, by decide, ?_⟩
  intro h1 h2 h3
  simp [statusText, StatusOk, StatusCreated, NotFound, h1, h2, h3]

/-! ## The index into the path chunks -/

theorem consHead_length (c : Char) (xs : List (List Char)) (h : xs ≠ []) :
    (consHead c xs).length = xs.length := by
  cases xs with
  | nil => exact absurd rfl h
  | cons x xs => rfl

/-- The number of pieces is one more than the number of separators. -/
theorem Split_slash_length (s : List Char) :
    (Split s ['/']).length = s.count '/' + 1 := by
  induction s with
  | nil => simp [Split_slash_nil]
  | cons c s ih =>
    rw [Split_slash_cons]
    by_cases hc : c = '/'
    · subst hc
      simp [ih]
    · rw [if_neg hc, consHead_length c _ (Split_slash_ne_nil s), ih,
        List.count_cons_of_ne (fun e => hc e.symm)]

theorem three_le_Split_of_substr (sub path : List Char) (hsub : 2 ≤ sub.count '/')
    (h : sub <:+: path) : 3 ≤ (Split path "/".toList).length := by
  have e1 : "/".toList = ['/'] := rfl
  rw [e1, Split_slash_length]
  have := h.sublist.count_le '/'
  omega

theorem index_ok_of_three_le (xs : List (List Char)) (h : 3 ≤ xs.length) :
    ∃ x, xs[2]? = some x ∧ index xs 2 = Except.ok x := by
  match xs, h with
  | _ :: _ :: x :: _, _ => exact ⟨x, by simp, by simp [index]⟩

/-- C9: for a path containing "/files/" or "/echo/", the split on "/" has at
least three elements, element 2 exists, `getFiles` and `handleEcho` return
without a panic, and `postFiles` does not panic on the index (it returns
whenever the request body can be read). -/
theorem pathChunks_index_in_range (path : List Char)
    (h : "/files/".toList <:+: path ∨ "/echo/".toList <:+: path) :
    3 ≤ (Split path "/".toList).length
    ∧ (∃ x, index (Split path "/".toList) 2 = Except.ok x)
    ∧ ∀ (gz : List Char → List Char) (c : Conn) (req : Request) (fs : FS), req.Path = path →
        (∃ r, getFiles c req fs = Except.ok r)
        ∧ (∃ r, handleEcho gz c req = Except.ok r)
        ∧ postFiles c req fs ≠ Except.error Panic.indexOutOfRange
        ∧ (∀ content, req.Body = some content → ∃ r, postFiles c req fs = Except.ok r) := by
  have h3 : 3 ≤ (Split path "/".toList).length := by
    rcases h with h | h
    · exact three_le_Split_of_substr _ _ (by decide) h
    · exact three_le_Split_of_substr _ _ (by decide) h
  obtain ⟨x, _, hx⟩ := index_ok_of_three_le _ h3
  refine ⟨h3, ⟨x, hx⟩, ?_⟩
  intro gz c req fs hp
  subst hp
  refine ⟨?_, ?_, ?_, ?_⟩
  · simp only [getFiles, hx, bind, Except.bind]
    cases ReadFile fs (filepathJoin [baseDir, x]) <;> exact ⟨_, rfl⟩
  · simp only [handleEcho, hx, bind, Except.bind]
    exact ⟨_, rfl⟩
  · simp only [postFiles, hx, bind, Except.bind]
    cases req.Body with
    | none => simp
    | some content =>
      cases hw : WriteFile fs (filepathJoin [baseDir, x]) content <;> simp [hw, pure, Except.pure]
  · intro content hb
    simp only [postFiles, hx, bind, Except.bind, hb]
    cases WriteFile fs (filepathJoin [baseDir, x]) content <;> exact ⟨_, rfl⟩

/-! ## Files -/

theorem selectRoute_files (p : List Char) (h : "/files/".toList <:+: p) :
    selectRoute p = Route.files := by
  have hne : p ≠ ['/'] := by
    intro e
    rw [e] at h
    revert h
    decide
  unfold selectRoute
  rw [if_neg hne, if_pos h]

theorem handler_files (gz : List Char → List Char) (c : Conn) (req : Request) (fs : FS)
    (h : "/files/".toList <:+: req.Path) :
    handler gz c req fs = closeAfter (handleFiles c req fs) := by
  rw [handler_eq_runRoute, selectRoute_files _ h]
  rfl

/-- C6: a GET whose path contains "/files/" and whose derived file cannot be
read is answered with exactly "HTTP/1.1 404 Not Found\r\n\r\n", after which the
connection is closed, and the stored files are as before. -/
theorem getFiles_unreadable (gz : List Char → List Char) (c : Conn) (req : Request) (fs : FS)
    (hm : req.Method = "GET".toList) (hp : "/files/".toList <:+: req.Path)
    (hread : ∀ filename, index (Split req.Path "/".toList) 2 = Except.ok filename →
      ReadFile fs (filepathJoin [baseDir, filename]) = none) :
    handler gz c req fs
      = Except.ok (c ++ [Event.write "HTTP/1.1 404 Not Found\r\n\r\n".toList, Event.close], fs) := by
  obtain ⟨x, _, hx⟩ := index_ok_of_three_le _ (three_le_Split_of_substr _ _ (by decide) hp)
  have hr := hread x hx
  rw [handler_files gz c req fs hp]
  simp only [handleFiles, hm, if_true, getFiles, hx, bind, Except.bind, hr, pure, Except.pure,
    Except.map, closeAfter, handleNotFound_eq, Conn.Close]
  simp

/-- C5: if a POST to "/files/" ++ name with body `B` is answered with a 201
Created response, then a GET to "/files/" ++ name on the resulting files is
answered with exactly the 200 response with Content-Type
application/octet-stream, Content-Length the decimal length of `B`, and body
`B`, and leaves the files as they are. -/
theorem post_then_get (gz : List Char → List Char) (c1 c2 : Conn) (post get : Request)
    (fs fs1 : FS) (name B r : List Char)
    (hpm : post.Method = "POST".toList) (hpp : post.Path = "/files/".toList ++ name)
    (hpb : post.Body = some B)
    (hgm : get.Method = "GET".toList) (hgp : get.Path = "/files/".toList ++ name)
    (hpost : handler gz c1 post fs = Except.ok (c1 ++ [Event.write r, Event.close], fs1))
    (h201 : "HTTP/1.1 201 Created\r\n".toList <+: r) :
    handler gz c2 get fs1 = Except.ok (c2 ++ [Event.write
      ("HTTP/1.1 200 OK\r\nContent-Type: application/octet-stream\r\nContent-Length: ".toList
        ++ itoa B.length ++ "\r\n\r\n".toList ++ B), Event.close], fs1) := by
  have hinf : "/files/".toList <:+: "/files/".toList ++ name := ⟨[], name, rfl⟩
  obtain ⟨x, _, hx⟩ := index_ok_of_three_le _ (three_le_Split_of_substr _ _ (by decide) hinf)
  have hne : "POST".toList ≠ "GET".toList := by decide
  rw [handler_files gz c1 post fs (hpp ▸ hinf)] at hpost
  simp only [handleFiles, hpm, if_neg hne, if_true, postFiles, hpp, hx, bind, Except.bind, hpb,
    WriteFile] at hpost
  rw [handler_files gz c2 get fs1 (hgp ▸ hinf)]
  by_cases hw : fs.writable (filepathJoin [baseDir, x]) = true
  · simp only [hw, if_true, pure, Except.pure, closeAfter, Except.map, Conn.Write, Conn.Close,
      Except.ok.injEq, Prod.mk.injEq] at hpost
    obtain ⟨_, hfs⟩ := hpost
    subst hfs
    simp only [handleFiles, hgm, if_true, getFiles, hgp, hx, bind, Except.bind, ReadFile,
      pure, Except.pure, Except.map, closeAfter, Conn.Write, Conn.Close, sprintf_octet_ok]
    simp
  · simp only [hw, Bool.false_eq_true, if_false, pure, Except.pure, closeAfter, Except.map,
      handleNotFound_eq, Conn.Close, Except.ok.injEq, Prod.mk.injEq] at hpost
    obtain ⟨hc, _⟩ := hpost
    simp only [List.append_assoc, List.singleton_append, List.append_cancel_left_eq,
      List.cons.injEq, Event.write.injEq, and_true] at hc
    subst hc
    exact absurd h201 (by decide)

/-! ## The resolved path -/

theorem stringsJoin_pair (a b : List Char) :
    stringsJoin [a, b] "/".toList = a ++ '/' :: b := by
  simp [stringsJoin, List.intercalate, List.intersperse, String.toList]

/-- The elements that cleaning keeps of the base directory. -/
theorem foldl_cleanElem_baseDir :
    (Split baseDir ['/']).foldl (cleanElem true) []
      = ["http-server-tester".toList, "codecrafters.io".toList, "data".toList, "tmp".toList] := by
  decide

theorem Clean_baseDir_child (f : List Char) (hf : '/' ∉ f) :
    Clean (baseDir ++ '/' :: f)
      = '/' :: stringsJoin (cleanElem true
          ["http-server-tester".toList, "codecrafters.io".toList, "data".toList, "tmp".toList]
          f).reverse "/".toList := by
  have e1 : "/".toList = ['/'] := rfl
  have hne : baseDir ++ '/' :: f ≠ [] := by simp
  have hroot : HasPrefix (baseDir ++ '/' :: f) ['/'] = true := rfl
  simp only [Clean, if_neg hne, e1, hroot, if_true, Split_slash_append,
    Split_slash_of_not_mem f hf, List.foldl_append, foldl_cleanElem_baseDir, List.foldl_cons,
    List.foldl_nil]

theorem filepathJoin_baseDir (f : List Char) :
    filepathJoin [baseDir, f] = Clean (baseDir ++ '/' :: f) := by
  have hb : baseDir ≠ [] := by decide
  simp only [filepathJoin, if_neg hb, stringsJoin_pair]

theorem chunk_not_mem_slash (path filename : List Char)
    (h : index (Split path "/".toList) 2 = Except.ok filename) : '/' ∉ filename := by
  have e1 : "/".toList = ['/'] := rfl
  have hmem : filename ∈ Split path ['/'] := by
    rw [e1] at h
    unfold index at h
    cases hq : (Split path ['/'])[2]? with
    | none => rw [hq] at h; cases h
    | some y =>
      rw [hq] at h
      have hy : y = filename := by simpa using h
      subst hy
      exact List.getElem?_mem hq
  exact Split_slash_not_mem path filename hmem

theorem resolved_cases (filename : List Char) (hno : '/' ∉ filename) :
    ((filename = [] ∨ filename = ".".toList) ∧ filepathJoin [baseDir, filename] = baseDir)
    ∨ (filename = "..".toList
        ∧ filepathJoin [baseDir, filename] = "/tmp/data/codecrafters.io".toList)
    ∨ ((filename ≠ [] ∧ filename ≠ ".".toList ∧ filename ≠ "..".toList)
        ∧ filepathJoin [baseDir, filename] = baseDir ++ '/' :: filename) := by
  rw [filepathJoin_baseDir, Clean_baseDir_child filename hno]
  by_cases h0 : filename = []
  · subst h0
    exact Or.inl ⟨Or.inl rfl, by decide⟩
  · by_cases h1 : filename = ".".toList
    · subst h1
      exact Or.inl ⟨Or.inr rfl, by decide⟩
    · by_cases h2 : filename = "..".toList
      · subst h2
        exact Or.inr (Or.inl ⟨rfl, by decide⟩)
      · refine Or.inr (Or.inr ⟨⟨h0, h1, h2⟩, ?_⟩)
        simp only [cleanElem, if_neg h0, if_neg h1, if_neg h2]
        simp [stringsJoin, List.intercalate, List.intersperse, baseDir, String.toList]

/-- The path resolved from chunk 2 of a request path is the base directory, its
parent, or a direct child of the base directory. -/
theorem resolved_one_level (path x : List Char)
    (hx : index (Split path "/".toList) 2 = Except.ok x) :
    filepathJoin [baseDir, x] = baseDir
    ∨ filepathJoin [baseDir, x] = "/tmp/data/codecrafters.io".toList
    ∨ ∃ f, '/' ∉ f ∧ f ≠ [] ∧ f ≠ ".".toList ∧ f ≠ "..".toList
        ∧ filepathJoin [baseDir, x] = baseDir ++ '/' :: f := by
  have hno := chunk_not_mem_slash path x hx
  rcases resolved_cases x hno with h | h | h
  · exact Or.inl h.2
  · exact Or.inr (Or.inl h.2)
  · exact Or.inr (Or.inr ⟨x, hno, h.1.1, h.1.2.1, h.1.2.2, h.2⟩)

/-- The response of `getFiles` depends on the files only through the read at
the resolved path. -/
theorem getFiles_reads_resolved (c : Conn) (req : Request) (fs fs2 : FS) (x : List Char)
    (hx : index (Split req.Path "/".toList) 2 = Except.ok x)
    (hr : ReadFile fs (filepathJoin [baseDir, x]) = ReadFile fs2 (filepathJoin [baseDir, x])) :
    getFiles c req fs = getFiles c req fs2 := by
  simp only [getFiles, hx, bind, Except.bind, hr]

/-- The response of `postFiles` depends on the files only through whether the
write at the resolved path succeeds. -/
theorem postFiles_response_resolved (c : Conn) (req : Request) (fs fs2 : FS) (x : List Char)
    (hx : index (Split req.Path "/".toList) 2 = Except.ok x)
    (hw : fs.writable (filepathJoin [baseDir, x]) = fs2.writable (filepathJoin [baseDir, x])) :
    (postFiles c req fs).map Prod.fst = (postFiles c req fs2).map Prod.fst := by
  simp only [postFiles, hx, bind, Except.bind, WriteFile, ← hw]
  cases req.Body with
  | none => rfl
  | some content =>
    cases hb : fs.writable (filepathJoin [baseDir, x]) <;> simp [pure, Except.pure, Except.map]

/-- A returning `postFiles` changes the files at the resolved path only. -/
theorem postFiles_writes_resolved (c c1 : Conn) (req : Request) (fs fs1 : FS) (x : List Char)
    (hx : index (Split req.Path "/".toList) 2 = Except.ok x)
    (hp : postFiles c req fs = Except.ok (c1, fs1)) :
    fs1.writable = fs.writable
    ∧ ∀ q, q ≠ filepathJoin [baseDir, x] → ReadFile fs1 q = ReadFile fs q := by
  simp only [postFiles, hx, bind, Except.bind, WriteFile] at hp
  cases hb : req.Body with
  | none => rw [hb] at hp; cases hp
  | some content =>
    rw [hb] at hp
    cases hw : fs.writable (filepathJoin [baseDir, x]) with
    | false =>
      simp only [hw, Bool.false_eq_true, if_false, pure, Except.pure, Except.ok.injEq,
        Prod.mk.injEq] at hp
      obtain ⟨_, hfs⟩ := hp
      subst hfs
      exact ⟨rfl, fun _ _ => rfl⟩
    | true =>
      simp only [hw, if_true, pure, Except.pure, Except.ok.injEq, Prod.mk.injEq] at hp
      obtain ⟨_, hfs⟩ := hp
      subst hfs
      refine ⟨rfl, fun q hq => ?_⟩
      simp only [ReadFile, if_neg hq]

theorem index_ok_or_error (xs : List (List Char)) :
    (∃ x, index xs 2 = Except.ok x) ∨ index xs 2 = Except.error Panic.indexOutOfRange := by
  unfold index
  cases xs[2]? with
  | none => exact Or.inr rfl
  | some x => exact Or.inl ⟨x, rfl⟩

/-- A returning `handleFiles` changes the files only at the path resolved from
chunk 2 of the request path. -/
theorem handleFiles_writes_resolved (c c1 : Conn) (req : Request) (fs fs1 : FS) (q : List Char)
    (hh : handleFiles c req fs = Except.ok (c1, fs1)) (hq : ReadFile fs1 q ≠ ReadFile fs q) :
    ∃ x, index (Split req.Path "/".toList) 2 = Except.ok x ∧ q = filepathJoin [baseDir, x] := by
  unfold handleFiles at hh
  by_cases hg : req.Method = "GET".toList
  · rw [if_pos hg] at hh
    cases hgf : getFiles c req fs with
    | error e => rw [hgf] at hh; cases hh
    | ok c2 =>
      rw [hgf] at hh
      simp only [Except.map, Except.ok.injEq, Prod.mk.injEq] at hh
      exact absurd (by rw [hh.2]) hq
  · rw [if_neg hg] at hh
    by_cases hpm : req.Method = "POST".toList
    · rw [if_pos hpm] at hh
      rcases index_ok_or_error (Split req.Path "/".toList) with ⟨x, hx⟩ | he
      · refine ⟨x, hx, ?_⟩
        by_contra hne
        exact hq ((postFiles_writes_resolved c c1 req fs fs1 x hx hh).2 q hne)
      · simp only [postFiles, he, bind, Except.bind] at hh
        cases hh
    · rw [if_neg hpm] at hh
      simp only [pure, Except.pure, Except.ok.injEq, Prod.mk.injEq] at hh
      exact absurd (by rw [hh.2]) hq

/-- The response of `handleFiles` depends on the files only at the path
resolved from chunk 2 of the request path. -/
theorem handleFiles_response_resolved (c : Conn) (req : Request) (fs fs2 : FS)
    (hsame : ∀ x, index (Split req.Path "/".toList) 2 = Except.ok x →
      ReadFile fs (filepathJoin [baseDir, x]) = ReadFile fs2 (filepathJoin [baseDir, x])
      ∧ fs.writable (filepathJoin [baseDir, x]) = fs2.writable (filepathJoin [baseDir, x])) :
    (handleFiles c req fs).map Prod.fst = (handleFiles c req fs2).map Prod.fst := by
  unfold handleFiles
  by_cases hg : req.Method = "GET".toList
  · rw [if_pos hg, if_pos hg]
    rcases index_ok_or_error (Split req.Path "/".toList) with ⟨x, hx⟩ | he
    · rw [getFiles_reads_resolved c req fs fs2 x hx (hsame x hx).1]
      cases getFiles c req fs2 <;> rfl
    · simp only [getFiles, he, bind, Except.bind]
      rfl
  · rw [if_neg hg, if_neg hg]
    by_cases hpm : req.Method = "POST".toList
    · rw [if_pos hpm, if_pos hpm]
      rcases index_ok_or_error (Split req.Path "/".toList) with ⟨x, hx⟩ | he
      · exact postFiles_response_resolved c req fs fs2 x hx (hsame x hx).2
      · simp only [postFiles, he, bind, Except.bind]
    · rw [if_neg hpm, if_neg hpm]
      rfl

/-- A returning `handler` changes the files only at the path resolved from
chunk 2 of the request path. -/
theorem handler_writes_resolved (gz : List Char → List Char) (c c1 : Conn) (req : Request)
    (fs fs1 : FS) (q : List Char)
    (hh : handler gz c req fs = Except.ok (c1, fs1)) (hq : ReadFile fs1 q ≠ ReadFile fs q) :
    ∃ x, index (Split req.Path "/".toList) 2 = Except.ok x ∧ q = filepathJoin [baseDir, x] := by
  rw [handler_eq_runRoute] at hh
  cases hr : selectRoute req.Path with
  | files =>
    rw [hr] at hh
    simp only [runRoute, closeAfter] at hh
    cases hf : handleFiles c req fs with
    | error e => rw [hf] at hh; cases hh
    | ok v =>
      rw [hf] at hh
      simp only [Except.map, Except.ok.injEq, Prod.mk.injEq] at hh
      obtain ⟨c2, fs2⟩ := v
      simp only at hh
      obtain ⟨_, hfs⟩ := hh
      subst hfs
      exact handleFiles_writes_resolved c c2 req fs fs2 q hf hq
  | echo =>
    rw [hr] at hh
    simp only [runRoute, closeAfter] at hh
    cases he : handleEcho gz c req with
    | error e => rw [he] at hh; cases hh
    | ok c2 =>
      rw [he] at hh
      simp only [Except.map, Except.ok.injEq, Prod.mk.injEq] at hh
      exact absurd (by rw [hh.2]) hq
  | root =>
    rw [hr] at hh
    simp only [runRoute, closeAfter, Except.map, Except.ok.injEq, Prod.mk.injEq] at hh
    exact absurd (by rw [hh.2]) hq
  | userAgent =>
    rw [hr] at hh
    simp only [runRoute, closeAfter, Except.map, Except.ok.injEq, Prod.mk.injEq] at hh
    exact absurd (by rw [hh.2]) hq
  | notFound =>
    rw [hr] at hh
    simp only [runRoute, closeAfter, Except.map, Except.ok.injEq, Prod.mk.injEq] at hh
    exact absurd (by rw [hh.2]) hq

theorem map_fst_closeAfter (r : Except Panic (Conn × FS)) :
    (closeAfter r).map Prod.fst = (r.map Prod.fst).map Conn.Close := by
  cases r <;> rfl

/-- The connection that `handler` leaves depends on the files only at the path
resolved from chunk 2 of the request path. -/
theorem handler_response_resolved (gz : List Char → List Char) (c : Conn) (req : Request)
    (fs fs2 : FS)
    (hsame : ∀ x, index (Split req.Path "/".toList) 2 = Except.ok x →
      ReadFile fs (filepathJoin [baseDir, x]) = ReadFile fs2 (filepathJoin [baseDir, x])
      ∧ fs.writable (filepathJoin [baseDir, x]) = fs2.writable (filepathJoin [baseDir, x])) :
    (handler gz c req fs).map Prod.fst = (handler gz c req fs2).map Prod.fst := by
  rw [handler_eq_runRoute, handler_eq_runRoute, map_fst_closeAfter, map_fst_closeAfter]
  cases hr : selectRoute req.Path with
  | files =>
    simp only [runRoute]
    rw [handleFiles_response_resolved c req fs fs2 hsame]
  | echo =>
    simp only [runRoute]
    cases handleEcho gz c req <;> rfl
  | root => rfl
  | userAgent => rfl
  | notFound => rfl

/-- C10: the filename that `getFiles` and `postFiles` take from a path contains
no '/', and joined with the base directory it names the base directory itself
(filename "" or "."), the parent of the base directory (filename ".."), or the
entry of that name directly in the base directory.  That resolved path is the
only one the handlers use: `getFiles` depends on the files only through the
read there, `postFiles` only through whether the write there succeeds, and a
returning `postFiles` changes the files there only.  Hence, for every request,
`handler` changes the files only at the base directory, its parent or a direct
child of the base directory, and the connection it leaves is the same on any
two file systems that agree on those paths. -/
theorem filename_one_level (path filename : List Char)
    (h : index (Split path "/".toList) 2 = Except.ok filename) :
    '/' ∉ filename
    ∧ (((filename = [] ∨ filename = ".".toList) ∧ filepathJoin [baseDir, filename] = baseDir)
      ∨ (filename = "..".toList
          ∧ filepathJoin [baseDir, filename] = "/tmp/data/codecrafters.io".toList)
      ∨ ((filename ≠ [] ∧ filename ≠ ".".toList ∧ filename ≠ "..".toList)
          ∧ filepathJoin [baseDir, filename] = baseDir ++ '/' :: filename))
    ∧ (∀ (c : Conn) (req : Request) (fs fs2 : FS), req.Path = path →
        ReadFile fs (filepathJoin [baseDir, filename])
          = ReadFile fs2 (filepathJoin [baseDir, filename]) →
        getFiles c req fs = getFiles c req fs2)
    ∧ (∀ (c : Conn) (req : Request) (fs fs2 : FS), req.Path = path →
        fs.writable (filepathJoin [baseDir, filename])
          = fs2.writable (filepathJoin [baseDir, filename]) →
        (postFiles c req fs).map Prod.fst = (postFiles c req fs2).map Prod.fst)
    ∧ (∀ (c c1 : Conn) (req : Request) (fs fs1 : FS), req.Path = path →
        postFiles c req fs = Except.ok (c1, fs1) →
        fs1.writable = fs.writable
        ∧ ∀ q, q ≠ filepathJoin [baseDir, filename] → ReadFile fs1 q = ReadFile fs q)
    ∧ (∀ (gz : List Char → List Char) (c c1 : Conn) (req : Request) (fs fs1 : FS)
        (q : List Char),
        handler gz c req fs = Except.ok (c1, fs1) → ReadFile fs1 q ≠ ReadFile fs q →
        q = baseDir ∨ q = "/tmp/data/codecrafters.io".toList
        ∨ ∃ f, '/' ∉ f ∧ f ≠ [] ∧ f ≠ ".".toList ∧ f ≠ "..".toList ∧ q = baseDir ++ '/' :: f)
    ∧ (∀ (gz : List Char → List Char) (c : Conn) (req : Request) (fs fs2 : FS),
        (∀ q, (q = baseDir ∨ q = "/tmp/data/codecrafters.io".toList
            ∨ ∃ f, '/' ∉ f ∧ f ≠ [] ∧ f ≠ ".".toList ∧ f ≠ "..".toList
                ∧ q = baseDir ++ '/' :: f) →
          ReadFile fs q = ReadFile fs2 q ∧ fs.writable q = fs2.writable q) →
        (handler gz c req fs).map Prod.fst = (handler gz c req fs2).map Prod.fst) := by
  refine ⟨chunk_not_mem_slash path filename h,
    resolved_cases filename (chunk_not_mem_slash path filename h), ?_, ?_, ?_, ?_, ?_⟩
  · intro c req fs fs2 hp hr
    subst hp
    exact getFiles_reads_resolved c req fs fs2 filename h hr
  · intro c req fs fs2 hp hw
    subst hp
    exact postFiles_response_resolved c req fs fs2 filename h hw
  · intro c c1 req fs fs1 hp hpost
    subst hp
    exact postFiles_writes_resolved c c1 req fs fs1 filename h hpost
  · intro gz c c1 req fs fs1 q hh hq
    obtain ⟨x, hx, hqx⟩ := handler_writes_resolved gz c c1 req fs fs1 q hh hq
    rw [hqx]
    exact resolved_one_level req.Path x hx
  · intro gz c req fs fs2 hsame
    exact handler_response_resolved gz c req fs fs2
      (fun x hx => hsame _ (resolved_one_level req.Path x hx))

/-! ## The theorems at concrete requests -/

/-- The path "/echo/files/x" contains both "/files/" and "/echo/" and selects the files handler. -/
theorem handler_first_match_witness :
    "/files/".toList <:+: "/echo/files/x".toList ∧ "/echo/".toList <:+: "/echo/files/x".toList
    ∧ selectRoute "/echo/files/x".toList = Route.files :=
  ⟨by decide, by decide,
    (handler_first_match id []
      { Method := "DELETE".toList, Path := "/echo/files/x".toList, Header := [], Body := none }
      emptyFS).2.2.1 (by decide) (by decide)⟩

/-- The request GET /echo/abc with Accept-Encoding: deflate is answered with the three bytes "abc", uncompressed. -/
theorem handleEcho_plain_witness :
    handleEcho id []
      { Method := "GET".toList, Path := "/echo/abc".toList,
        Header := [("Accept-Encoding".toList, ["deflate".toList])], Body := some [] }
    = Except.ok [Event.write
        "HTTP/1.1 200 OK\r\nContent-Type: text/plain\r\nContent-Length: 3\r\n\r\nabc".toList] :=
  handleEcho_plain id []
    { Method := "GET".toList, Path := "/echo/abc".toList,
      Header := [("Accept-Encoding".toList, ["deflate".toList])], Body := some [] }
    "abc".toList (by decide) rfl (Or.inr (by decide))

/-- The request GET /echo/abc with Accept-Encoding: br, gzip, under the stand-in compressor. -/
theorem handleEcho_gzip_witness :
    ∃ body : List Char,
      handleEcho toyGzip []
        { Method := "GET".toList, Path := "/echo/abc".toList,
          Header := [("Accept-Encoding".toList, ["br, gzip".toList])], Body := some [] }
      = Except.ok ([] ++ [Event.write
        ("HTTP/1.1 200 OK\r\nContent-Type: text/plain\r\nContent-Encoding: gzip\r\nContent-Length: ".toList
          ++ itoa body.length ++ "\r\n\r\n".toList ++ body)])
      ∧ body = compress toyGzip "abc".toList ∧ toyGunzip body = some "abc".toList :=
  handleEcho_gzip toyGzip toyGunzip []
    { Method := "GET".toList, Path := "/echo/abc".toList,
      Header := [("Accept-Encoding".toList, ["br, gzip".toList])], Body := some [] }
    "abc".toList (by decide) rfl (by decide) (fun _ => rfl)

/-- After POST /files/abc with body "hello" on the empty file system, GET /files/abc returns "hello". -/
theorem post_then_get_witness :
    handler id []
      { Method := "GET".toList, Path := "/files/abc".toList, Header := [], Body := some [] }
      helloFS
    = Except.ok ([Event.write
        "HTTP/1.1 200 OK\r\nContent-Type: application/octet-stream\r\nContent-Length: 5\r\n\r\nhello".toList,
        Event.close], helloFS) :=
  post_then_get id [] []
    { Method := "POST".toList, Path := "/files/abc".toList, Header := [],
      Body := some "hello".toList }
    { Method := "GET".toList, Path := "/files/abc".toList, Header := [], Body := some [] }
    emptyFS helloFS "abc".toList "hello".toList
    "HTTP/1.1 201 Created\r\nContent-Type: application/octet-stream\r\nContent-Length: 5\r\n\r\nhello".toList
    rfl rfl rfl rfl rfl rfl
    ⟨"Content-Type: application/octet-stream\r\nContent-Length: 5\r\n\r\nhello".toList, rfl⟩

/-- The request GET /files/nope on the empty file system is answered 404. -/
theorem getFiles_unreadable_witness :
    handler id []
      { Method := "GET".toList, Path := "/files/nope".toList, Header := [], Body := some [] }
      emptyFS
    = Except.ok ([Event.write "HTTP/1.1 404 Not Found\r\n\r\n".toList, Event.close], emptyFS) :=
  getFiles_unreadable id []
    { Method := "GET".toList, Path := "/files/nope".toList, Header := [], Body := some [] }
    emptyFS rfl (by decide) (fun _ _ => rfl)

/-- The request GET /user-agent without a User-Agent header is answered with an empty body of length 0. -/
theorem handleUserAgent_verbatim_witness :
    handler id []
      { Method := "GET".toList, Path := "/user-agent".toList, Header := [], Body := some [] }
      emptyFS
    = Except.ok ([Event.write
        "HTTP/1.1 200 OK\r\nContent-Type: text/plain\r\nContent-Length: 0\r\n\r\n".toList,
        Event.close], emptyFS) :=
  (handleUserAgent_verbatim id []
    { Method := "GET".toList, Path := "/user-agent".toList, Header := [], Body := some [] }
    emptyFS).2.2.1 (by decide)

/-- The status code -1 has the empty text. -/
theorem statusText_total_witness : statusText (-1) = [] :=
  (statusText_total (-1)).2.2.2 (by decide) (by decide) (by decide)

/-- The path "/echo/" splits into three chunks, so chunk 2 exists. -/
theorem pathChunks_index_in_range_witness :
    3 ≤ (Split "/echo/".toList "/".toList).length
    ∧ ∃ x, index (Split "/echo/".toList "/".toList) 2 = Except.ok x :=
  ⟨(pathChunks_index_in_range "/echo/".toList (Or.inr (by decide))).1,
    (pathChunks_index_in_range "/echo/".toList (Or.inr (by decide))).2.1⟩

/-- The path "/files/../x" gives the filename "..", which resolves to the parent of the base
directory; the files `emptyFS` and `helloFS` agree there, so `getFiles` answers alike on both. -/
theorem filename_one_level_witness :
    '/' ∉ "..".toList
    ∧ ((("..".toList = [] ∨ "..".toList = ".".toList)
          ∧ filepathJoin [baseDir, "..".toList] = baseDir)
      ∨ ("..".toList = "..".toList
          ∧ filepathJoin [baseDir, "..".toList] = "/tmp/data/codecrafters.io".toList)
      ∨ (("..".toList ≠ [] ∧ "..".toList ≠ ".".toList ∧ "..".toList ≠ "..".toList)
          ∧ filepathJoin [baseDir, "..".toList] = baseDir ++ '/' :: "..".toList))
    ∧ getFiles []
        { Method := "GET".toList, Path := "/files/../x".toList, Header := [], Body := some [] }
        emptyFS
      = getFiles []
        { Method := "GET".toList, Path := "/files/../x".toList, Header := [], Body := some [] }
        helloFS :=
  ⟨(filename_one_level "/files/../x".toList "..".toList rfl).1,
    (filename_one_level "/files/../x".toList "..".toList rfl).2.1,
    (filename_one_level "/files/../x".toList "..".toList rfl).2.2.1 []
      { Method := "GET".toList, Path := "/files/../x".toList, Header := [], Body := some [] }
      emptyFS helloFS rfl (by decide)⟩

end Server
